import Mathlib

/-!
Shallow embedding of the tender-generation pipeline of `src/main.py`
(class `TenderGenerator` plus the export logic of `main`), together with
proofs of the behavioural properties claimed for it.

External services (the OpenAI embeddings endpoint, the Pinecone index
query, and the chat-completion endpoint) are modelled as an environment
of oracles, each returning either a payload or a fault.  Every UI side
effect performed through `st` (progress bar, status text, error boxes)
is recorded in an explicit event trace, and the `project_details`
mapping is threaded through the functions that receive it so that frame
properties can be stated.  Python exceptions become `Except Fault`
values: `raise e` is the propagation of the same fault value, and a
`st.error` call before a re-raise is a trace event.
-/

namespace TenderBot

/-- Model of the `project_details` dictionary built in `main` (lines
211-217 of `src/main.py`): five fields, with `duration` a positive
integer of months. -/
structure ProjectDetails where
  title : String
  location : String
  duration : Nat
  budget : String
  description : String
deriving DecidableEq, Repr

/-- Model of one Pinecone match as consumed by the code: a relevance
score and a metadata payload, the latter a string-keyed dictionary
(the code reads `match[metadata][content]`). -/
structure SimMatch where
  score : Rat
  metadata : List (String × String)
deriving DecidableEq, Repr

/-- Faults that can be raised while the pipeline runs: a fault coming
back from one of the outside services (the code re-raises it
unchanged), or a Python `KeyError` from a dictionary lookup. -/
inductive Fault where
  | api (msg : String)
  | keyError (key : String)
deriving DecidableEq, Repr

/-- Rendering of a fault used where the code interpolates `str(e)` into
a `st.error` message. -/
def faultMsg : Fault → String
  | .api m => m
  | .keyError k => "KeyError: " ++ k

/-- Model of the argument record of `client.chat.completions.create`
(lines 76-84): model name, role-tagged message list, sampling
temperature and maximum output tokens. -/
structure ChatRequest where
  model : String
  messages : List (String × String)
  temperature : Rat
  maxTokens : Nat
deriving DecidableEq, Repr

/-- Observable steps of a run: the three outbound API calls and the
Streamlit UI side effects performed by the code. -/
inductive Event where
  | embedCall (text : String)
  | queryCall (vec : List Rat) (topK : Nat)
  | chatCall (req : ChatRequest)
  | stError (msg : String)
  | statusText (msg : String)
  | progressCreate
  | statusCreate
  | progressUpdate (fraction : Rat)
  | progressClear
  | statusClear
deriving DecidableEq, Repr

/-- Environment of external oracles: the embeddings endpoint, the
Pinecone index query (already projected to its `matches` field), and
the chat-completion endpoint. -/
structure Env where
  embed : String → Except Fault (List Rat)
  query : List Rat → Nat → Except Fault (List SimMatch)
  chat : ChatRequest → Except Fault String

/-- Output of a pipeline step that receives the `project_details`
dictionary: the emitted events, the dictionary as the step leaves it,
and the payload or the propagated fault. -/
structure StepOut (α : Type) where
  events : List Event
  pd : ProjectDetails
  res : Except Fault α
deriving Repr

/-- Fixed ordered section list `self.sections` (lines 13-20). -/
def sections : List String :=
  ["NOTICE INVITING TENDER",
   "BRIEF INTRODUCTION",
   "INSTRUCTION TO BIDDERS",
   "SCOPE OF WORK",
   "TERMS AND CONDITIONS",
   "PRICE BID"]

/-- `TenderGenerator.get_embedding` (lines 22-32): one embeddings call;
on failure the code shows `st.error` and re-raises the same exception. -/
def get_embedding (env : Env) (text : String) :
    List Event × Except Fault (List Rat) :=
  match env.embed text with
  | .ok v => ([Event.embedCall text], .ok v)
  | .error e =>
      ([Event.embedCall text,
        Event.stError ("Error generating embedding: " ++ faultMsg e)],
       .error e)

/-- `TenderGenerator.search_similar_sections` (lines 34-46): embed the
query, then query the index; any failure (including one propagated out
of `get_embedding`) is reported with `st.error` and re-raised. -/
def search_similar_sections (env : Env) (query : String) (top_k : Nat := 3) :
    List Event × Except Fault (List SimMatch) :=
  match get_embedding env query with
  | (evs, .error e) =>
      (evs ++ [Event.stError ("Error searching similar sections: " ++ faultMsg e)],
       .error e)
  | (evs, .ok vec) =>
      match env.query vec top_k with
      | .ok ms => (evs ++ [Event.queryCall vec top_k], .ok ms)
      | .error e =>
          (evs ++ [Event.queryCall vec top_k,
                   Event.stError ("Error searching similar sections: " ++ faultMsg e)],
           .error e)

/-- Context pieces built by the list comprehension at lines 53-56: for
the match at zero-based position `i`, the piece is
`Example (i+1):` newline `content`; a match whose metadata lacks the
`content` key raises a `KeyError` at that point, exactly where the
comprehension would. -/
def exampleBlocks : List SimMatch → Nat → Except Fault (List String)
  | [], _ => .ok []
  | m :: ms, i =>
      match m.metadata.lookup "content" with
      | none => .error (.keyError "content")
      | some c =>
          match exampleBlocks ms (i + 1) with
          | .error e => .error e
          | .ok rest =>
              .ok (("Example " ++ toString (i + 1) ++ ":\n" ++ c) :: rest)

/-- Context block: the pieces joined by a blank line
(`"\n\n".join(...)`, line 53). -/
def buildContext (ms : List SimMatch) : Except Fault String :=
  match exampleBlocks ms 0 with
  | .ok blocks => .ok (String.intercalate "\n\n" blocks)
  | .error e => .error e

/-- Prompt f-string of lines 59-74, reproduced with its exact literal
text, including the 12-space indentation of the continuation lines of
the triple-quoted string. -/
def mkPrompt (section_name : String) (pd : ProjectDetails) (context : String) : String :=
  "You are an expert tender document writer. Generate the " ++ section_name
    ++ " section\n            for a new tender based on the following project details and example sections.\n\n            Project Details:\n            Title: "
    ++ pd.title
    ++ "\n            Location: " ++ pd.location
    ++ "\n            Duration: " ++ toString pd.duration
    ++ " months\n            Budget: " ++ pd.budget
    ++ "\n            Description: " ++ pd.description
    ++ "\n\n            Similar Examples from Other Tenders:\n            " ++ context
    ++ "\n\n            Please generate a professional and detailed " ++ section_name
    ++ " section that follows\n            the style and format of the examples while being specific to this project.\n            The content should be practical, clear, and legally sound."

/-- Argument record of the `chat.completions.create` call at lines
76-84: model `gpt-4`, a fixed system message, the user prompt,
temperature `0.7`, `max_tokens` 2000. -/
def tenderChatRequest (section_name : String) (pd : ProjectDetails) (context : String) :
    ChatRequest :=
  { model := "gpt-4",
    messages :=
      [("system", "You are an expert tender document generator."),
       ("user", mkPrompt section_name pd context)],
    temperature := 0.7,
    maxTokens := 2000 }

/-- `TenderGenerator.generate_tender_section` (lines 48-89): build the
context block, build the prompt, issue one completion call; any failure
is reported with `st.error` and re-raised.  The `project_details`
dictionary is only read, and is returned as the step leaves it. -/
def generate_tender_section (env : Env) (section_name : String)
    (pd : ProjectDetails) (similar_sections : List SimMatch) : StepOut String :=
  match buildContext similar_sections with
  | .error e =>
      { events := [Event.stError ("Error generating tender section: " ++ faultMsg e)],
        pd := pd, res := .error e }
  | .ok context =>
      let req := tenderChatRequest section_name pd context
      match env.chat req with
      | .ok content => { events := [Event.chatCall req], pd := pd, res := .ok content }
      | .error e =>
          { events := [Event.chatCall req,
                       Event.stError ("Error generating tender section: " ++ faultMsg e)],
            pd := pd, res := .error e }

/-- Search query composed at line 102:
`f"{section} {project_details[title]} {project_details[description]}"`. -/
def searchQuery (section_name : String) (pd : ProjectDetails) : String :=
  section_name ++ " " ++ pd.title ++ " " ++ pd.description

/-- Body of one iteration of the loop at lines 98-115 up to the
progress update: status text, similarity search, section generation. -/
def processSection (env : Env) (pd : ProjectDetails) (section_name : String) :
    StepOut String :=
  let ev0 := [Event.statusText ("Generating " ++ section_name ++ "...")]
  match search_similar_sections env (searchQuery section_name pd) 3 with
  | (evs, .error e) => { events := ev0 ++ evs, pd := pd, res := .error e }
  | (evs, .ok ms) =>
      let g := generate_tender_section env section_name pd ms
      { events := ev0 ++ evs ++ g.events, pd := g.pd, res := g.res }

/-- Loop of lines 98-118 over the remaining sections: on success of a
section, record its text in the accumulated mapping and emit the
progress fraction `(idx+1)/len(self.sections)`; on failure, stop and
propagate the fault; after the last section, set the completion status
text. -/
def genSections (env : Env) : ProjectDetails → List String → Nat →
    List (String × String) → StepOut (List (String × String))
  | pd, [], _, acc =>
      { events := [Event.statusText "Tender generation completed!"], pd := pd, res := .ok acc }
  | pd, section_name :: rest, idx, acc =>
      let p := processSection env pd section_name
      match p.res with
      | .error e => { events := p.events, pd := p.pd, res := .error e }
      | .ok content =>
          let r := genSections env p.pd rest (idx + 1) (acc ++ [(section_name, content)])
          { events := p.events
              ++ [Event.progressUpdate (((idx : Rat) + 1) / (sections.length : Rat))]
              ++ r.events,
            pd := r.pd, res := r.res }

/-- `TenderGenerator.generate_complete_tender` (lines 91-124): create
the progress bar and the status placeholder, run the section loop, on
failure report `st.error` and re-raise, and in the `finally` block
clear the progress bar and the status text on every path. -/
def generate_complete_tender (env : Env) (pd : ProjectDetails) :
    StepOut (List (String × String)) :=
  let r := genSections env pd sections 0 []
  match r.res with
  | .ok doc =>
      { events := [Event.progressCreate, Event.statusCreate] ++ r.events
          ++ [Event.progressClear, Event.statusClear],
        pd := r.pd, res := .ok doc }
  | .error e =>
      { events := [Event.progressCreate, Event.statusCreate] ++ r.events
          ++ [Event.stError ("Error generating complete tender: " ++ faultMsg e)]
          ++ [Event.progressClear, Event.statusClear],
        pd := r.pd, res := .error e }

/-- Construction of `project_details` in `main` (lines 211-217): the
budget field is `budget or "Not specified"`, so the empty string is
replaced by the sentinel. -/
def mkProjectDetails (title location : String) (duration : Nat)
    (budget description : String) : ProjectDetails :=
  { title := title, location := location, duration := duration,
    budget := if budget = "" then "Not specified" else budget,
    description := description }

/-- Projection of a trace to the status-text messages. -/
def statusTexts (evs : List Event) : List String :=
  evs.filterMap fun e =>
    match e with
    | .statusText m => some m
    | _ => none

/-- Projection of a trace to the progress-bar fractions. -/
def progressUpdates (evs : List Event) : List Rat :=
  evs.filterMap fun e =>
    match e with
    | .progressUpdate q => some q
    | _ => none

/-- Projection of a trace to the issued chat-completion requests. -/
def chatRequests (evs : List Event) : List ChatRequest :=
  evs.filterMap fun e =>
    match e with
    | .chatCall r => some r
    | _ => none

/-- Projection of a trace to the texts sent to the embeddings endpoint. -/
def embedTexts (evs : List Event) : List String :=
  evs.filterMap fun e =>
    match e with
    | .embedCall t => some t
    | _ => none

/-- Scenario input of the spec: the form values
`title="Road Upgrade", location="Sector 9", duration=6, budget="",
description="Resurface 4km road"` as `main` turns them into
`project_details`. -/
def scenarioDetails : ProjectDetails :=
  mkProjectDetails "Road Upgrade" "Sector 9" 6 "" "Resurface 4km road"

/-- Test environment in which every external call succeeds with a fixed
payload. -/
def envAllOk : Env :=
  { embed := fun _ => .ok [0],
    query := fun _ _ => .ok [],
    chat := fun _ => .ok "GENERATED" }

/-- Document produced by a run against `envAllOk`. -/
def docAllOk : List (String × String) :=
  sections.map fun s => (s, "GENERATED")

/-- Environment in which the embeddings call fails exactly on the
search query of the third section, with every other call succeeding. -/
def envFail3 : Env :=
  { embed := fun t =>
      if t = searchQuery "INSTRUCTION TO BIDDERS" scenarioDetails then
        .error (.api "boom")
      else .ok [0],
    query := fun _ _ => .ok [],
    chat := fun _ => .ok "GENERATED" }

/-- Environment in which every embeddings call fails with the given
message and everything else succeeds. -/
def envEmbedFail (msg : String) : Env :=
  { embed := fun _ => .error (.api msg),
    query := fun _ _ => .ok [],
    chat := fun _ => .ok "GENERATED" }

/-- Environment in which every chat-completion call fails with the
given message and everything else succeeds. -/
def envChatFail (msg : String) : Env :=
  { embed := fun _ => .ok [0],
    query := fun _ _ => .ok [],
    chat := fun _ => .error (.api msg) }

/-- Match whose metadata payload lacks the `content` key. -/
def badMatch : SimMatch :=
  { score := 1, metadata := [("title", "old tender")] }

/-- Environment whose index query returns the malformed match and whose
other calls succeed. -/
def envBadMatch : Env :=
  { embed := fun _ => .ok [0],
    query := fun _ _ => .ok [badMatch],
    chat := fun _ => .ok "GENERATED" }

/-- Prefix test on character lists: `leadMatch s b` holds when `s` is
an initial segment of `b`. -/
def leadMatch : List Char → List Char → Bool
  | [], _ => true
  | _ :: _, [] => false
  | a :: as, b :: bs => a = b && leadMatch as bs

/-- Substring search on character lists. -/
def findSub : List Char → List Char → Bool
  | s, [] => leadMatch s []
  | s, b :: bs => leadMatch s (b :: bs) || findSub s bs

/-- Substring containment of strings, as the existence of surrounding
context. -/
def ContainsStr (big small : String) : Prop :=
  ∃ x y, big.data = x ++ small.data ++ y

/-- Plain-text export built at lines 236-239:
`"\n\n".join(f"# {section}\n\n{content}" ...)`. -/
def textExport (m : List (String × String)) : String :=
  String.intercalate "\n\n" (m.map fun p => "# " ++ p.1 ++ "\n\n" ++ p.2)

/-- Opening curly bracket character. -/
def lbrace : Char := Char.ofNat 123

/-- Closing curly bracket character. -/
def rbrace : Char := Char.ofNat 125

/-- Lowercase hexadecimal digit for a value below 16. -/
def toHexDigit (n : Nat) : Char :=
  if n < 10 then Char.ofNat (48 + n) else Char.ofNat (87 + n)

/-- Value of a hexadecimal digit character, upper or lower case. -/
def fromHexDigit (c : Char) : Option Nat :=
  if 48 ≤ c.toNat ∧ c.toNat ≤ 57 then some (c.toNat - 48)
  else if 97 ≤ c.toNat ∧ c.toNat ≤ 102 then some (c.toNat - 87)
  else if 65 ≤ c.toNat ∧ c.toNat ≤ 70 then some (c.toNat - 55)
  else none

/-- Six-character escape `\uXXXX` with four lowercase hex digits, as
the Python json encoder emits it. -/
def uEscape (v : Nat) : List Char :=
  ['\\', 'u', toHexDigit (v / 4096 % 16), toHexDigit (v / 256 % 16),
   toHexDigit (v / 16 % 16), toHexDigit (v % 16)]

/-- Escaping of one character exactly as `json.dumps` with its default
`ensure_ascii=True` does it: the two-character escapes for quote,
backslash, backspace, form feed, newline, carriage return and tab;
characters from space to tilde kept as they are; every other value of
the basic plane as `\uXXXX`; values above the basic plane as a
surrogate pair. -/
def escapeChar (c : Char) : List Char :=
  if c = '"' then ['\\', '"']
  else if c = '\\' then ['\\', '\\']
  else if c = '\n' then ['\\', 'n']
  else if c = '\r' then ['\\', 'r']
  else if c = '\t' then ['\\', 't']
  else if c.toNat = 8 then ['\\', 'b']
  else if c.toNat = 12 then ['\\', 'f']
  else if 32 ≤ c.toNat ∧ c.toNat ≤ 126 then [c]
  else if c.toNat < 65536 then uEscape c.toNat
  else uEscape (55296 + (c.toNat - 65536) / 1024)
    ++ uEscape (56320 + (c.toNat - 65536) % 1024)

/-- Escaping of a character list. -/
def escapeStr : List Char → List Char
  | [] => []
  | c :: cs => escapeChar c ++ escapeStr cs

/-- JSON string literal for a string value. -/
def quoteJ (s : String) : List Char :=
  '"' :: (escapeStr s.data ++ ['"'])

/-- One `  "key": "value"` member line of the indent-2 object form. -/
def dumpsEntry (k v : String) : List Char :=
  ' ' :: ' ' :: (quoteJ k ++ ':' :: ' ' :: quoteJ v)

/-- Member lines joined by `,` and a line break. -/
def dumpsEntries : List (String × String) → List Char
  | [] => []
  | [(k, v)] => dumpsEntry k v
  | (k, v) :: rest => dumpsEntry k v ++ ',' :: '\n' :: dumpsEntries rest

/-- Model of `json.dumps(tender_sections, indent=2)` (line 253) on a
flat string-to-string mapping. -/
def json_dumps (m : List (String × String)) : String :=
  match m with
  | [] => String.mk [lbrace, rbrace]
  | _ => String.mk (lbrace :: '\n' :: (dumpsEntries m ++ ['\n', rbrace]))

/-- JSON whitespace. -/
def isWsChar (c : Char) : Bool :=
  c = ' ' || c = '\n' || c = '\t' || c = '\r'

/-- Drop leading JSON whitespace. -/
def skipWs : List Char → List Char
  | [] => []
  | c :: cs => if isWsChar c then skipWs cs else c :: cs

/-- Decoder for the low-surrogate continuation of a `\uXXXX` pair:
given the already-read high surrogate value, expects a second `\uXXXX`
in the low-surrogate range and combines the two. -/
def parseULow (v : Nat) : List Char → Option (Char × List Char)
  | b1 :: b2 :: e1 :: e2 :: e3 :: e4 :: r3 =>
    if b1 = '\\' ∧ b2 = 'u' then
      match fromHexDigit e1, fromHexDigit e2, fromHexDigit e3, fromHexDigit e4 with
      | some y1, some y2, some y3, some y4 =>
        let w := y1 * 4096 + y2 * 256 + y3 * 16 + y4
        if 56320 ≤ w ∧ w < 57344 then
          some (Char.ofNat (65536 + (v - 55296) * 1024 + (w - 56320)), r3)
        else none
      | _, _, _, _ => none
    else none
  | _ => none

/-- Decoder for the digits of a `\uXXXX` escape: reads four hex
digits; a high surrogate demands a paired low surrogate, a lone low
surrogate is rejected, and any other value is the decoded character. -/
def parseU : List Char → Option (Char × List Char)
  | a :: b :: g :: d :: r2 =>
    match fromHexDigit a, fromHexDigit b, fromHexDigit g, fromHexDigit d with
    | some x1, some x2, some x3, some x4 =>
      let v := x1 * 4096 + x2 * 256 + x3 * 16 + x4
      if 55296 ≤ v ∧ v < 56320 then parseULow v r2
      else if 56320 ≤ v ∧ v < 57344 then none
      else some (Char.ofNat v, r2)
    | _, _, _, _ => none
  | _ => none

/-- Decoder for one backslash escape, applied to the characters after
the backslash: handles the two-character escapes, `\uXXXX`, and
surrogate-pair combination, as `json.loads` does; returns the decoded
character and the remainder. -/
def parseEsc : List Char → Option (Char × List Char)
  | [] => none
  | e :: r =>
    if e = '"' then some ('"', r)
    else if e = '\\' then some ('\\', r)
    else if e = '/' then some ('/', r)
    else if e = 'b' then some (Char.ofNat 8, r)
    else if e = 'f' then some (Char.ofNat 12, r)
    else if e = 'n' then some ('\n', r)
    else if e = 'r' then some ('\r', r)
    else if e = 't' then some ('\t', r)
    else if e = 'u' then parseU r
    else none

/-- Fuelled parser for the body of a JSON string literal, starting
after the opening quote and consuming through the closing quote. -/
def parseJStringF : Nat → List Char → Option (List Char × List Char)
  | 0, _ => none
  | _ + 1, [] => none
  | fuel + 1, c :: rest =>
    if c = '"' then some ([], rest)
    else if c = '\\' then
      match parseEsc rest with
      | none => none
      | some (ch, r) => (parseJStringF fuel r).map (fun p => (ch :: p.1, p.2))
    else (parseJStringF fuel rest).map (fun p => (c :: p.1, p.2))

/-- String-literal parser with its fuel set to the input length, which
one backslash-consuming step per character cannot exhaust. -/
def parseJString (l : List Char) : Option (List Char × List Char) :=
  parseJStringF l.length l

/-- Parser for one `"key": "value"` member, tolerating leading
whitespace at each token. -/
def parsePair (l : List Char) : Option ((String × String) × List Char) :=
  match skipWs l with
  | [] => none
  | c :: r =>
    if c = '"' then
      match parseJString r with
      | none => none
      | some (kcs, r2) =>
        match skipWs r2 with
        | [] => none
        | c2 :: r3 =>
          if c2 = ':' then
            match skipWs r3 with
            | [] => none
            | c3 :: r4 =>
              if c3 = '"' then
                match parseJString r4 with
                | none => none
                | some (vcs, r5) => some ((String.mk kcs, String.mk vcs), r5)
              else none
          else none
    else none

/-- Parser for a comma-separated member list up to and through the
closing bracket, with fuel bounding the number of members. -/
def parseMembers : Nat → List Char → Option (List (String × String) × List Char)
  | 0, _ => none
  | fuel + 1, l =>
    match parsePair l with
    | none => none
    | some (kv, r) =>
      match skipWs r with
      | [] => none
      | c :: r2 =>
        if c = ',' then
          match parseMembers fuel r2 with
          | none => none
          | some (rest, r3) => some (kv :: rest, r3)
        else if c = rbrace then some ([kv], r2)
        else none

/-- Model of `json.loads` restricted to flat string-to-string objects:
parse the object form and fail on trailing garbage. -/
def json_loads (s : String) : Option (List (String × String)) :=
  match skipWs s.data with
  | [] => none
  | c :: r =>
    if c = lbrace then
      match skipWs r with
      | [] => none
      | c2 :: r2 =>
        if c2 = rbrace then if (skipWs r2).isEmpty then some [] else none
        else
          match parseMembers (r.length + 1) r with
          | none => none
          | some (m, rem) => if (skipWs rem).isEmpty then some m else none
    else none

/-- Frame lemma: `generate_tender_section` only reads the
`project_details` dictionary. -/
theorem generate_tender_section_pd (env : Env) (s : String) (pd : ProjectDetails)
    (ms : List SimMatch) : (generate_tender_section env s pd ms).pd = pd := by
  unfold generate_tender_section
  cases h : buildContext ms with
  | error e => simp
  | ok context =>
      cases h2 : env.chat (tenderChatRequest s pd context) <;> simp [h2]

/-- Frame lemma: `processSection` only reads the `project_details`
dictionary. -/
theorem processSection_pd (env : Env) (pd : ProjectDetails) (s : String) :
    (processSection env pd s).pd = pd := by
  unfold processSection
  rcases h : search_similar_sections env (searchQuery s pd) 3 with ⟨evs, res⟩
  cases res with
  | error e => simp
  | ok ms => simp [generate_tender_section_pd]

/-- Frame lemma: the section loop only reads the `project_details`
dictionary. -/
theorem genSections_pd (env : Env) :
    ∀ (l : List String) (pd : ProjectDetails) (idx : Nat)
      (acc : List (String × String)), (genSections env pd l idx acc).pd = pd := by
  intro l
  induction l with
  | nil => intro pd idx acc; simp [genSections]
  | cons s rest ih =>
      intro pd idx acc
      simp only [genSections]
      cases hp : (processSection env pd s).res with
      | error e => simpa using processSection_pd env pd s
      | ok content =>
          simp [ih, processSection_pd]

/-- Key-structure lemma for the section loop: a successful run extends
the accumulated key list by exactly the sections iterated over, in
order. -/
theorem genSections_ok_keys (env : Env) :
    ∀ (l : List String) (pd : ProjectDetails) (idx : Nat)
      (acc doc : List (String × String)),
      (genSections env pd l idx acc).res = .ok doc →
      doc.map Prod.fst = acc.map Prod.fst ++ l := by
  intro l
  induction l with
  | nil =>
      intro pd idx acc doc h
      simp only [genSections] at h
      cases h
      simp
  | cons s rest ih =>
      intro pd idx acc doc h
      simp only [genSections] at h
      cases hp : (processSection env pd s).res with
      | error e => rw [hp] at h; cases h
      | ok content =>
          rw [hp] at h
          simp only at h
          have := ih _ _ _ _ h
          simpa [List.map_append] using this

/-- Claim C1: for every environment and every valid `ProjectDetails`
input, when `generate_complete_tender` returns a mapping at all, that
mapping has exactly the six fixed section names as keys, in the fixed
order, with no missing, extra or duplicate entries; on any fault no
mapping is returned. -/
theorem claim_C1 (env : Env) (pd : ProjectDetails) (doc : List (String × String))
    (h : (generate_complete_tender env pd).res = .ok doc) :
    doc.map Prod.fst = sections := by
  cases hr : (genSections env pd sections 0 []).res with
  | error e => simp [generate_complete_tender, hr] at h
  | ok d =>
      simp only [generate_complete_tender, hr] at h
      cases h
      simpa using genSections_ok_keys env sections pd 0 [] doc hr

/-- Witness for C1: a concrete all-successful run returns the mapping
with exactly the six section keys in order. -/
theorem claim_C1_witness :
    (generate_complete_tender envAllOk scenarioDetails).res = .ok docAllOk ∧
    docAllOk.map Prod.fst = sections :=
  ⟨rfl, claim_C1 envAllOk scenarioDetails docAllOk rfl⟩

/-- Claim C4: the empty budget field is normalised to `Not specified`
when `project_details` is built, and the search query composed for the
section `SCOPE OF WORK` on the scenario input is exactly
`SCOPE OF WORK Road Upgrade Resurface 4km road`; the fourth embeddings
call of a successful run receives exactly that query. -/
theorem claim_C4 :
    mkProjectDetails "Road Upgrade" "Sector 9" 6 "" "Resurface 4km road" =
      { title := "Road Upgrade", location := "Sector 9", duration := 6,
        budget := "Not specified", description := "Resurface 4km road" } ∧
    searchQuery "SCOPE OF WORK" scenarioDetails =
      "SCOPE OF WORK Road Upgrade Resurface 4km road" ∧
    (embedTexts (generate_complete_tender envAllOk scenarioDetails).events)[3]? =
      some "SCOPE OF WORK Road Upgrade Resurface 4km road" :=
  ⟨rfl, rfl, rfl⟩

/-- Claim C10: neither `generate_tender_section` nor
`generate_complete_tender` mutates the `project_details` mapping: the
dictionary each returns is the one it was given, on success and on
failure alike. -/
theorem claim_C10 (env : Env) (s : String) (pd : ProjectDetails)
    (ms : List SimMatch) :
    (generate_tender_section env s pd ms).pd = pd ∧
    (generate_complete_tender env pd).pd = pd := by
  constructor
  · exact generate_tender_section_pd env s pd ms
  · cases hr : (genSections env pd sections 0 []).res <;>
      simpa [generate_complete_tender, hr] using genSections_pd env sections pd 0 []

/-- Event-kind lemma: a similarity search emits no status text, no
progress update and no progress-clear event. -/
theorem search_events_flat (env : Env) (q : String) (k : Nat) :
    statusTexts (search_similar_sections env q k).1 = [] ∧
    progressUpdates (search_similar_sections env q k).1 = [] ∧
    Event.progressClear ∉ (search_similar_sections env q k).1 := by
  unfold search_similar_sections get_embedding
  cases h : env.embed q with
  | error e => simp [statusTexts, progressUpdates]
  | ok vec =>
      cases h2 : env.query vec k <;> simp [h2, statusTexts, progressUpdates]

/-- Event-kind lemma: section generation emits no status text, no
progress update and no progress-clear event. -/
theorem gts_events_flat (env : Env) (s : String) (pd : ProjectDetails)
    (ms : List SimMatch) :
    statusTexts (generate_tender_section env s pd ms).events = [] ∧
    progressUpdates (generate_tender_section env s pd ms).events = [] ∧
    Event.progressClear ∉ (generate_tender_section env s pd ms).events := by
  unfold generate_tender_section
  cases h : buildContext ms with
  | error e => simp [statusTexts, progressUpdates]
  | ok context =>
      cases h2 : env.chat (tenderChatRequest s pd context) <;>
        simp [h2, statusTexts, progressUpdates]

/-- Event-kind lemma: processing one section emits exactly one status
text naming that section, no progress update and no progress-clear
event. -/
theorem processSection_events (env : Env) (pd : ProjectDetails) (s : String) :
    statusTexts (processSection env pd s).events = ["Generating " ++ s ++ "..."] ∧
    progressUpdates (processSection env pd s).events = [] ∧
    Event.progressClear ∉ (processSection env pd s).events := by
  unfold processSection
  rcases hs : search_similar_sections env (searchQuery s pd) 3 with ⟨evs, res⟩
  have hflat := search_events_flat env (searchQuery s pd) 3
  rw [hs] at hflat
  cases res with
  | error e =>
      simpa [statusTexts, progressUpdates] using hflat
  | ok ms =>
      have hg := gts_events_flat env s pd ms
      simp only [statusTexts, progressUpdates, List.filterMap_append] at hflat hg ⊢
      simp [hflat.1, hflat.2.1, hg.1, hg.2.1, statusTexts, progressUpdates]
      exact ⟨hflat.2.2, hg.2.2⟩

/-- The section loop never emits a progress-clear event. -/
theorem genSections_noClear (env : Env) :
    ∀ (l : List String) (pd : ProjectDetails) (idx : Nat)
      (acc : List (String × String)),
      Event.progressClear ∉ (genSections env pd l idx acc).events := by
  intro l
  induction l with
  | nil => intro pd idx acc; simp [genSections]
  | cons s rest ih =>
      intro pd idx acc
      simp only [genSections]
      cases hp : (processSection env pd s).res with
      | error e => exact (processSection_events env pd s).2.2
      | ok content =>
          simp only [List.mem_append]
          push_neg
          exact ⟨⟨(processSection_events env pd s).2.2, by simp⟩, ih _ _ _⟩

/-- Progress fractions of a successful run of the section loop:
starting at index `idx`, the loop over `l` emits the fractions
`(idx+1)/6 … (idx+len l)/6` in order. -/
theorem genSections_updates (env : Env) :
    ∀ (l : List String) (pd : ProjectDetails) (idx : Nat)
      (acc doc : List (String × String)),
      (genSections env pd l idx acc).res = .ok doc →
      progressUpdates (genSections env pd l idx acc).events =
        (List.range l.length).map
          (fun j => ((idx + j + 1 : Nat) : Rat) / (sections.length : Rat)) := by
  intro l
  induction l with
  | nil => intro pd idx acc doc h; simp [genSections, progressUpdates]
  | cons s rest ih =>
      intro pd idx acc doc h
      simp only [genSections] at h ⊢
      cases hp : (processSection env pd s).res with
      | error e => rw [hp] at h; cases h
      | ok content =>
          rw [hp] at h
          simp only at h
          have hrec := ih _ _ _ _ h
          have h1 := (processSection_events env pd s).2.1
          simp only [progressUpdates, List.filterMap_append] at hrec h1 ⊢
          rw [List.length_cons, List.range_succ_eq_map, List.map_cons, List.map_map,
            h1, hrec]
          simp only [List.nil_append, List.filterMap_cons, List.filterMap_nil,
            List.cons_append, List.nil_append]
          congr 1
          · push_cast; ring
          · apply List.map_congr_left
            intro j _
            simp only [Function.comp]
            push_cast
            ring

/-- Claim C7: on every run the event trace ends with exactly one
progress-bar release followed by the status-text release, with no
earlier progress-bar release, on the success path and on every failure
path; and a run with no failures emits exactly the six progress
fractions 1/6 … 6/6 in order. -/
theorem claim_C7 (env : Env) (pd : ProjectDetails) :
    (∃ t, (generate_complete_tender env pd).events =
        t ++ [Event.progressClear, Event.statusClear] ∧
        Event.progressClear ∉ t) ∧
    (∀ doc, (generate_complete_tender env pd).res = .ok doc →
      progressUpdates (generate_complete_tender env pd).events =
        [1/6, 2/6, 3/6, 4/6, 5/6, 6/6]) := by
  constructor
  · cases hr : (genSections env pd sections 0 []).res with
    | ok doc =>
        refine ⟨[Event.progressCreate, Event.statusCreate]
          ++ (genSections env pd sections 0 []).events, ?_, ?_⟩
        · simp [generate_complete_tender, hr]
        · simp only [List.mem_append]
          push_neg
          exact ⟨by simp, genSections_noClear env sections pd 0 []⟩
    | error e =>
        refine ⟨[Event.progressCreate, Event.statusCreate]
          ++ (genSections env pd sections 0 []).events
          ++ [Event.stError ("Error generating complete tender: " ++ faultMsg e)], ?_, ?_⟩
        · simp [generate_complete_tender, hr]
        · simp only [List.mem_append]
          push_neg
          exact ⟨⟨by simp, genSections_noClear env sections pd 0 []⟩, by simp⟩
  · intro doc h
    cases hr : (genSections env pd sections 0 []).res with
    | error e => simp [generate_complete_tender, hr] at h
    | ok d =>
        have hupd := genSections_updates env sections pd 0 [] d hr
        simp only [generate_complete_tender, hr, progressUpdates,
          List.filterMap_append, List.filterMap_cons, List.filterMap_nil] at hupd ⊢
        rw [hupd]
        norm_num [sections, List.range_succ]

/-- Witness for C7: the concrete all-successful run has the final
release pair and emits exactly the six fractions. -/
theorem claim_C7_witness :
    (∃ t, (generate_complete_tender envAllOk scenarioDetails).events =
        t ++ [Event.progressClear, Event.statusClear] ∧
        Event.progressClear ∉ t) ∧
    progressUpdates (generate_complete_tender envAllOk scenarioDetails).events =
      [1/6, 2/6, 3/6, 4/6, 5/6, 6/6] :=
  ⟨(claim_C7 envAllOk scenarioDetails).1,
   (claim_C7 envAllOk scenarioDetails).2 docAllOk rfl⟩

/-- Claim C2: when the processing of the third section fails with fault
`f` while the first two sections succeed, the run propagates exactly
`f`, returns no mapping, and the trace shows that only the first three
sections were ever started: its status texts name sections one to three
and nothing after them. -/
theorem claim_C2 (env : Env) (pd : ProjectDetails) (f : Fault)
    (h1 : ∃ c, (processSection env pd "NOTICE INVITING TENDER").res = .ok c)
    (h2 : ∃ c, (processSection env pd "BRIEF INTRODUCTION").res = .ok c)
    (h3 : (processSection env pd "INSTRUCTION TO BIDDERS").res = .error f) :
    (generate_complete_tender env pd).res = .error f ∧
    statusTexts (generate_complete_tender env pd).events =
      ["Generating NOTICE INVITING TENDER...",
       "Generating BRIEF INTRODUCTION...",
       "Generating INSTRUCTION TO BIDDERS..."] := by
  obtain ⟨c1, hc1⟩ := h1
  obtain ⟨c2, hc2⟩ := h2
  have hpd1 := processSection_pd env pd "NOTICE INVITING TENDER"
  have hpd2 := processSection_pd env pd "BRIEF INTRODUCTION"
  have hres : (genSections env pd sections 0 []).res = .error f := by
    simp only [sections, genSections, hc1, hpd1, hc2, hpd2, h3]
  have s1 := (processSection_events env pd "NOTICE INVITING TENDER").1
  have s2 := (processSection_events env pd "BRIEF INTRODUCTION").1
  have s3 := (processSection_events env pd "INSTRUCTION TO BIDDERS").1
  simp only [statusTexts] at s1 s2 s3
  have hev : statusTexts (genSections env pd sections 0 []).events =
      ["Generating NOTICE INVITING TENDER...",
       "Generating BRIEF INTRODUCTION...",
       "Generating INSTRUCTION TO BIDDERS..."] := by
    simp only [sections, genSections, hc1, hpd1, hc2, hpd2, h3]
    simp only [statusTexts, List.filterMap_append, s1, s2, s3,
      List.filterMap_cons, List.filterMap_nil]
    simp
  refine ⟨by simp [generate_complete_tender, hres], ?_⟩
  simp only [statusTexts] at hev
  simp only [generate_complete_tender, hres, statusTexts, List.filterMap_append,
    List.filterMap_cons, List.filterMap_nil, hev]
  simp

/-- Witness for C2: with the embeddings call failing on the third
section, the first two sections succeed, the run propagates the fault
and only three sections are started. -/
theorem claim_C2_witness :
    (generate_complete_tender envFail3 scenarioDetails).res = .error (.api "boom") ∧
    statusTexts (generate_complete_tender envFail3 scenarioDetails).events =
      ["Generating NOTICE INVITING TENDER...",
       "Generating BRIEF INTRODUCTION...",
       "Generating INSTRUCTION TO BIDDERS..."] :=
  claim_C2 envFail3 scenarioDetails (.api "boom")
    ⟨"GENERATED", rfl⟩ ⟨"GENERATED", rfl⟩ rfl

/-- Containment is reflexive. -/
theorem contains_self (s : String) : ContainsStr s s :=
  ⟨[], [], by simp⟩

/-- Containment extends through appending on the right. -/
theorem contains_left (a b s : String) (h : ContainsStr a s) : ContainsStr (a ++ b) s := by
  obtain ⟨x, y, hxy⟩ := h
  exact ⟨x, y ++ b.data, by simp [String.data_append, hxy, List.append_assoc]⟩

/-- Containment extends through appending on the left. -/
theorem contains_right (a b s : String) (h : ContainsStr b s) : ContainsStr (a ++ b) s := by
  obtain ⟨x, y, hxy⟩ := h
  exact ⟨a.data ++ x, y, by simp [String.data_append, hxy, List.append_assoc]⟩

/-- Correctness of the leading-segment test. -/
theorem leadMatch_iff (s : List Char) :
    ∀ b, leadMatch s b = true ↔ ∃ t, b = s ++ t := by
  induction s with
  | nil => intro b; simp [leadMatch]
  | cons a as ih =>
      intro b
      cases b with
      | nil => simp [leadMatch]
      | cons c cs =>
          simp only [leadMatch, Bool.and_eq_true, decide_eq_true_eq, ih]
          constructor
          · rintro ⟨hac, t, ht⟩
            exact ⟨t, by simp [hac, ht]⟩
          · rintro ⟨t, ht⟩
            cases ht
            exact ⟨rfl, t, rfl⟩

/-- Correctness of the substring search. -/
theorem findSub_iff (s : List Char) :
    ∀ b, findSub s b = true ↔ ∃ x y, b = x ++ s ++ y := by
  intro b
  induction b with
  | nil =>
      simp only [findSub, leadMatch_iff]
      constructor
      · rintro ⟨t, ht⟩
        exact ⟨[], t, by simp [ht]⟩
      · rintro ⟨x, y, hxy⟩
        rcases List.append_eq_nil.mp (List.append_eq_nil.mp hxy.symm).1 with ⟨hx, hs⟩
        exact ⟨y, by simp [hs, (List.append_eq_nil.mp hxy.symm).2]⟩
  | cons c cs ih =>
      simp only [findSub, Bool.or_eq_true, leadMatch_iff, ih]
      constructor
      · rintro (⟨t, ht⟩ | ⟨x, y, hxy⟩)
        · exact ⟨[], t, by simp [ht]⟩
        · exact ⟨c :: x, y, by simp [hxy]⟩
      · rintro ⟨x, y, hxy⟩
        cases x with
        | nil => exact Or.inl ⟨y, by simpa using hxy⟩
        | cons d ds =>
            right
            have h2 : c :: cs = d :: (ds ++ s ++ y) := by simpa using hxy
            injection h2 with h2a h2b
            exact ⟨ds, y, h2b⟩

/-- Containment agrees with the executable substring search. -/
theorem ContainsStr_iff (big small : String) :
    ContainsStr big small ↔ findSub small.data big.data = true := by
  rw [findSub_iff]
  exact Iff.rfl

/-- Counterexample to claim C3: the code re-raises the bare underlying
fault from every stage, so a run whose embeddings call fails and a run
whose completion call fails propagate the very same error value — the
caller cannot tell the kinds apart from what is raised, and no wrapping
error type exists. -/
theorem claim_C3_counterexample :
    (generate_complete_tender (envEmbedFail "boom") scenarioDetails).res =
      (generate_complete_tender (envChatFail "boom") scenarioDetails).res ∧
    (generate_complete_tender (envEmbedFail "boom") scenarioDetails).res =
      .error (.api "boom") :=
  ⟨rfl, rfl⟩

/-- Claim C3 as amended: each failing external call propagates the
underlying fault unchanged — no `EmbeddingError`, `SearchError` or
`GenerationError` wrapper exists — and the failing stage is recorded
only in the `st.error` messages emitted before each re-raise
(`Error generating embedding`, `Error searching similar sections`,
`Error generating tender section`). -/
theorem claim_C3 (pd : ProjectDetails) (msg : String) :
    (generate_complete_tender (envEmbedFail msg) pd).res = .error (.api msg) ∧
    Event.stError ("Error generating embedding: " ++ msg) ∈
      (generate_complete_tender (envEmbedFail msg) pd).events ∧
    Event.stError ("Error searching similar sections: " ++ msg) ∈
      (generate_complete_tender (envEmbedFail msg) pd).events ∧
    (generate_complete_tender (envChatFail msg) pd).res = .error (.api msg) ∧
    Event.stError ("Error generating tender section: " ++ msg) ∈
      (generate_complete_tender (envChatFail msg) pd).events := by
  refine ⟨rfl, ?_, ?_, rfl, ?_⟩ <;>
    simp [generate_complete_tender, genSections, sections, processSection,
      search_similar_sections, get_embedding, generate_tender_section,
      buildContext, exampleBlocks, envEmbedFail, envChatFail, faultMsg]

/-- Structure of a successfully built context list: starting the
numbering at `i`, the block for the match at offset `j` is
`Example (i+j+1):` newline the content field of that match. -/
theorem exampleBlocks_ok (ms : List SimMatch) :
    ∀ (i : Nat) (blocks : List String), exampleBlocks ms i = .ok blocks →
      blocks.length = ms.length ∧
      ∀ j (hj : j < blocks.length) (hj2 : j < ms.length),
        blocks.get ⟨j, hj⟩ =
          "Example " ++ toString (i + j + 1) ++ ":\n"
            ++ (((ms.get ⟨j, hj2⟩).metadata.lookup "content").getD "") := by
  induction ms with
  | nil =>
      intro i blocks h
      simp only [exampleBlocks] at h
      cases h
      exact ⟨rfl, fun j hj hj2 => absurd hj (by simp)⟩
  | cons m ms ih =>
      intro i blocks h
      simp only [exampleBlocks] at h
      cases hl : m.metadata.lookup "content" with
      | none => rw [hl] at h; cases h
      | some c =>
          rw [hl] at h
          cases hr : exampleBlocks ms (i + 1) with
          | error e => rw [hr] at h; cases h
          | ok rest =>
              rw [hr] at h
              simp only at h
              cases h
              obtain ⟨hlen, hget⟩ := ih (i + 1) rest hr
              refine ⟨by simp [hlen], ?_⟩
              intro j hj hj2
              cases j with
              | zero => simp [hl]
              | succ j =>
                  have hj3 : j < rest.length := by simpa using hj
                  have hj4 : j < ms.length := by simpa using hj2
                  have := hget j hj3 hj4
                  simpa [Nat.add_assoc, Nat.add_comm, Nat.add_left_comm] using this

set_option maxRecDepth 40000 in
/-- Claim C5: the context block is the blank-line join of the content
fields, numbered `Example 1`, `Example 2`, … in received order; for an
empty match list the context block is the empty string, the resulting
prompt carries no literal `Example 1` artifact, and the completion
endpoint is called exactly once. -/
theorem claim_C5 :
    (∀ (ms : List SimMatch) (blocks : List String),
        exampleBlocks ms 0 = .ok blocks →
        buildContext ms = .ok (String.intercalate "\n\n" blocks) ∧
        blocks.length = ms.length ∧
        ∀ j (hj : j < blocks.length) (hj2 : j < ms.length),
          blocks.get ⟨j, hj⟩ =
            "Example " ++ toString (j + 1) ++ ":\n"
              ++ (((ms.get ⟨j, hj2⟩).metadata.lookup "content").getD "")) ∧
    buildContext [] = .ok "" ∧
    (∀ (env : Env) (s : String) (pd : ProjectDetails),
        (chatRequests (generate_tender_section env s pd []).events).length = 1) ∧
    ¬ ContainsStr (mkPrompt "SCOPE OF WORK" scenarioDetails "") "Example 1" := by
  refine ⟨?_, rfl, ?_, ?_⟩
  · intro ms blocks h
    obtain ⟨hlen, hget⟩ := exampleBlocks_ok ms 0 blocks h
    exact ⟨by simp [buildContext, h], hlen, fun j hj hj2 => by
      simpa using hget j hj hj2⟩
  · intro env s pd
    have hb : buildContext ([] : List SimMatch) = .ok "" := rfl
    unfold generate_tender_section
    rw [hb]
    cases h2 : env.chat (tenderChatRequest s pd "") <;> simp [h2, chatRequests]
  · rw [ContainsStr_iff]
    decide

/-- Witness for C5: on a concrete single-match list the context block
is the numbered content, and on the empty list the completion endpoint
of a concrete environment is called exactly once. -/
theorem claim_C5_witness :
    buildContext [{ score := 1, metadata := [("content", "Road works example")] }]
      = .ok (String.intercalate "\n\n" ["Example 1:\nRoad works example"]) ∧
    (["Example 1:\nRoad works example"] : List String).length
      = [({ score := 1, metadata := [("content", "Road works example")] } : SimMatch)].length ∧
    (chatRequests (generate_tender_section envAllOk "SCOPE OF WORK" scenarioDetails
        []).events).length = 1 :=
  ⟨(claim_C5.1 [{ score := 1, metadata := [("content", "Road works example")] }]
      ["Example 1:\nRoad works example"] rfl).1,
   (claim_C5.1 [{ score := 1, metadata := [("content", "Road works example")] }]
      ["Example 1:\nRoad works example"] rfl).2.1,
   claim_C5.2.2.1 envAllOk "SCOPE OF WORK" scenarioDetails⟩

/-- Every field of the prompt appears verbatim inside it. -/
theorem mkPrompt_contains (s : String) (pd : ProjectDetails) (ctx : String) :
    ContainsStr (mkPrompt s pd ctx) s ∧
    ContainsStr (mkPrompt s pd ctx) pd.title ∧
    ContainsStr (mkPrompt s pd ctx) pd.location ∧
    ContainsStr (mkPrompt s pd ctx) (toString pd.duration) ∧
    ContainsStr (mkPrompt s pd ctx) pd.budget ∧
    ContainsStr (mkPrompt s pd ctx) pd.description := by
  unfold mkPrompt
  refine ⟨?_, ?_, ?_, ?_, ?_, ?_⟩
  · iterate 1 apply contains_left
    exact contains_right _ _ _ (contains_self _)
  · iterate 13 apply contains_left
    exact contains_right _ _ _ (contains_self _)
  · iterate 11 apply contains_left
    exact contains_right _ _ _ (contains_self _)
  · iterate 9 apply contains_left
    exact contains_right _ _ _ (contains_self _)
  · iterate 7 apply contains_left
    exact contains_right _ _ _ (contains_self _)
  · iterate 5 apply contains_left
    exact contains_right _ _ _ (contains_self _)

/-- Claim C6: every completion request issued by section generation
carries the model `gpt-4`, the fixed system message, sampling
temperature 0.7 and maximum output length 2000 tokens, and its user
prompt embeds the section name and all five project fields verbatim. -/
theorem claim_C6 (env : Env) (s : String) (pd : ProjectDetails)
    (ms : List SimMatch) (req : ChatRequest)
    (h : req ∈ chatRequests (generate_tender_section env s pd ms).events) :
    req.model = "gpt-4" ∧ req.temperature = 0.7 ∧ req.maxTokens = 2000 ∧
    ∃ context,
      req.messages =
        [("system", "You are an expert tender document generator."),
         ("user", mkPrompt s pd context)] ∧
      ContainsStr (mkPrompt s pd context) s ∧
      ContainsStr (mkPrompt s pd context) pd.title ∧
      ContainsStr (mkPrompt s pd context) pd.location ∧
      ContainsStr (mkPrompt s pd context) (toString pd.duration) ∧
      ContainsStr (mkPrompt s pd context) pd.budget ∧
      ContainsStr (mkPrompt s pd context) pd.description := by
  unfold generate_tender_section at h
  cases hb : buildContext ms with
  | error e => rw [hb] at h; simp [chatRequests] at h
  | ok context =>
      rw [hb] at h
      simp only at h
      have hreq : req = tenderChatRequest s pd context := by
        cases h2 : env.chat (tenderChatRequest s pd context) <;>
          · rw [h2] at h
            simpa [chatRequests] using h
      subst hreq
      exact ⟨rfl, rfl, rfl, context, rfl, mkPrompt_contains s pd context⟩

/-- Witness for C6: the request issued on the scenario input with no
matches satisfies all the fixed-parameter and verbatim-embedding
properties. -/
theorem claim_C6_witness :
    (tenderChatRequest "SCOPE OF WORK" scenarioDetails "").model = "gpt-4" ∧
    (tenderChatRequest "SCOPE OF WORK" scenarioDetails "").temperature = 0.7 ∧
    (tenderChatRequest "SCOPE OF WORK" scenarioDetails "").maxTokens = 2000 ∧
    ∃ context,
      (tenderChatRequest "SCOPE OF WORK" scenarioDetails "").messages =
        [("system", "You are an expert tender document generator."),
         ("user", mkPrompt "SCOPE OF WORK" scenarioDetails context)] ∧
      ContainsStr (mkPrompt "SCOPE OF WORK" scenarioDetails context) "SCOPE OF WORK" ∧
      ContainsStr (mkPrompt "SCOPE OF WORK" scenarioDetails context) scenarioDetails.title ∧
      ContainsStr (mkPrompt "SCOPE OF WORK" scenarioDetails context) scenarioDetails.location ∧
      ContainsStr (mkPrompt "SCOPE OF WORK" scenarioDetails context)
        (toString scenarioDetails.duration) ∧
      ContainsStr (mkPrompt "SCOPE OF WORK" scenarioDetails context) scenarioDetails.budget ∧
      ContainsStr (mkPrompt "SCOPE OF WORK" scenarioDetails context)
        scenarioDetails.description :=
  claim_C6 envAllOk "SCOPE OF WORK" scenarioDetails []
    (tenderChatRequest "SCOPE OF WORK" scenarioDetails "")
    (List.mem_singleton.mpr rfl)

/-- Any match list holding a match without a `content` key makes the
context construction raise the `KeyError`. -/
theorem exampleBlocks_missing (ms : List SimMatch) :
    ∀ i, (∃ m ∈ ms, m.metadata.lookup "content" = none) →
      exampleBlocks ms i = .error (.keyError "content") := by
  induction ms with
  | nil => intro i h; simp at h
  | cons m rest ih =>
      intro i h
      simp only [exampleBlocks]
      cases hl : m.metadata.lookup "content" with
      | none => rfl
      | some c =>
          obtain ⟨m2, hm2, hnone⟩ := h
          rcases List.mem_cons.mp hm2 with rfl | hm2r
          · rw [hl] at hnone; cases hnone
          · rw [ih (i + 1) ⟨m2, hm2r, hnone⟩]

/-- Claim C9: a similarity match whose metadata lacks the `content` key
makes section generation raise a lookup fault while building the
context block — before any completion call is issued — and a document
run whose search returns such a match fails with that lookup fault. -/
theorem claim_C9 (env : Env) (s : String) (pd : ProjectDetails)
    (ms : List SimMatch) (vec0 : List Rat)
    (h : ∃ m ∈ ms, m.metadata.lookup "content" = none)
    (he : ∀ t, env.embed t = .ok vec0)
    (hq : ∀ v k, env.query v k = .ok ms) :
    (generate_tender_section env s pd ms).res = .error (.keyError "content") ∧
    chatRequests (generate_tender_section env s pd ms).events = [] ∧
    (generate_complete_tender env pd).res = .error (.keyError "content") := by
  have hctx : buildContext ms = .error (.keyError "content") := by
    simp [buildContext, exampleBlocks_missing ms 0 h]
  have hgts : ∀ sec, generate_tender_section env sec pd ms =
      { events := [Event.stError ("Error generating tender section: "
          ++ faultMsg (.keyError "content"))],
        pd := pd, res := .error (.keyError "content") } := by
    intro sec
    unfold generate_tender_section
    rw [hctx]
  refine ⟨by rw [hgts s], by rw [hgts s]; rfl, ?_⟩
  have hsearch : ∀ q, search_similar_sections env q 3 =
      ([Event.embedCall q, Event.queryCall vec0 3], .ok ms) := by
    intro q
    unfold search_similar_sections get_embedding
    rw [he q]
    simp only
    rw [hq vec0 3]
    simp
  have hps : (processSection env pd "NOTICE INVITING TENDER").res =
      .error (.keyError "content") := by
    unfold processSection
    rw [hsearch]
    simp [hgts]
  have hres : (genSections env pd sections 0 []).res =
      .error (.keyError "content") := by
    simp only [sections, genSections, hps]
  simp [generate_complete_tender, hres]

/-- Witness for C9: the concrete malformed match fails the section and
the whole run. -/
theorem claim_C9_witness :
    (generate_tender_section envBadMatch "SCOPE OF WORK" scenarioDetails
        [badMatch]).res = .error (.keyError "content") ∧
    chatRequests (generate_tender_section envBadMatch "SCOPE OF WORK" scenarioDetails
        [badMatch]).events = [] ∧
    (generate_complete_tender envBadMatch scenarioDetails).res =
      .error (.keyError "content") :=
  claim_C9 envBadMatch "SCOPE OF WORK" scenarioDetails [badMatch] [0]
    ⟨badMatch, List.mem_singleton.mpr rfl, rfl⟩ (fun _ => rfl) (fun _ _ => rfl)

/-- Hex digits decode back to their value. -/
theorem fromHexDigit_toHexDigit (n : Nat) (h : n < 16) :
    fromHexDigit (toHexDigit n) = some n := by
  interval_cases n <;> decide

/-- Valid scalar values avoid the surrogate range and stay below
`0x110000`. -/
theorem char_valid_range (c : Char) :
    c.toNat < 55296 ∨ (57344 ≤ c.toNat ∧ c.toNat < 1114112) := by
  rcases c.valid with h | ⟨h1, h2⟩
  · exact Or.inl h
  · exact Or.inr ⟨h1, h2⟩

/-- The escape decoder hands a `u` escape to the `\uXXXX` decoder. -/
theorem parseEsc_U (r : List Char) : parseEsc ('u' :: r) = parseU r := by
  simp [parseEsc]

/-- Decoding a `\uXXXX` escape of a non-surrogate basic-plane value. -/
theorem parseEsc_u (v : Nat) (hv : v < 65536)
    (hs : ¬(55296 ≤ v ∧ v < 57344)) (tail : List Char) :
    parseEsc ('u' :: toHexDigit (v / 4096 % 16) :: toHexDigit (v / 256 % 16)
      :: toHexDigit (v / 16 % 16) :: toHexDigit (v % 16) :: tail) =
      some (Char.ofNat v, tail) := by
  have h1 : fromHexDigit (toHexDigit (v / 4096 % 16)) = some (v / 4096 % 16) :=
    fromHexDigit_toHexDigit _ (Nat.mod_lt _ (by norm_num))
  have h2 : fromHexDigit (toHexDigit (v / 256 % 16)) = some (v / 256 % 16) :=
    fromHexDigit_toHexDigit _ (Nat.mod_lt _ (by norm_num))
  have h3 : fromHexDigit (toHexDigit (v / 16 % 16)) = some (v / 16 % 16) :=
    fromHexDigit_toHexDigit _ (Nat.mod_lt _ (by norm_num))
  have h4 : fromHexDigit (toHexDigit (v % 16)) = some (v % 16) :=
    fromHexDigit_toHexDigit _ (Nat.mod_lt _ (by norm_num))
  have heq : v / 4096 % 16 * 4096 + v / 256 % 16 * 256 + v / 16 % 16 * 16 + v % 16
      = v := by omega
  have hn1 : ¬(55296 ≤ v ∧ v < 56320) := by omega
  have hn2 : ¬(56320 ≤ v ∧ v < 57344) := by omega
  rw [parseEsc_U]
  simp only [parseU, h1, h2, h3, h4]
  simp only [heq, if_neg hn1, if_neg hn2]

/-- Decoding a surrogate pair at the `\uXXXX` decoder level, for a
high and a low surrogate value given abstractly. -/
theorem parseU_pair (hi lo : Nat) (hhi1 : 55296 ≤ hi) (hhi2 : hi < 56320)
    (hlo1 : 56320 ≤ lo) (hlo2 : lo < 57344) (tail : List Char) :
    parseU (toHexDigit (hi / 4096 % 16) :: toHexDigit (hi / 256 % 16)
      :: toHexDigit (hi / 16 % 16) :: toHexDigit (hi % 16)
      :: '\\' :: 'u' :: toHexDigit (lo / 4096 % 16) :: toHexDigit (lo / 256 % 16)
      :: toHexDigit (lo / 16 % 16) :: toHexDigit (lo % 16) :: tail) =
      some (Char.ofNat (65536 + (hi - 55296) * 1024 + (lo - 56320)), tail) := by
  have h1 : fromHexDigit (toHexDigit (hi / 4096 % 16)) = some (hi / 4096 % 16) :=
    fromHexDigit_toHexDigit _ (Nat.mod_lt _ (by norm_num))
  have h2 : fromHexDigit (toHexDigit (hi / 256 % 16)) = some (hi / 256 % 16) :=
    fromHexDigit_toHexDigit _ (Nat.mod_lt _ (by norm_num))
  have h3 : fromHexDigit (toHexDigit (hi / 16 % 16)) = some (hi / 16 % 16) :=
    fromHexDigit_toHexDigit _ (Nat.mod_lt _ (by norm_num))
  have h4 : fromHexDigit (toHexDigit (hi % 16)) = some (hi % 16) :=
    fromHexDigit_toHexDigit _ (Nat.mod_lt _ (by norm_num))
  have h5 : fromHexDigit (toHexDigit (lo / 4096 % 16)) = some (lo / 4096 % 16) :=
    fromHexDigit_toHexDigit _ (Nat.mod_lt _ (by norm_num))
  have h6 : fromHexDigit (toHexDigit (lo / 256 % 16)) = some (lo / 256 % 16) :=
    fromHexDigit_toHexDigit _ (Nat.mod_lt _ (by norm_num))
  have h7 : fromHexDigit (toHexDigit (lo / 16 % 16)) = some (lo / 16 % 16) :=
    fromHexDigit_toHexDigit _ (Nat.mod_lt _ (by norm_num))
  have h8 : fromHexDigit (toHexDigit (lo % 16)) = some (lo % 16) :=
    fromHexDigit_toHexDigit _ (Nat.mod_lt _ (by norm_num))
  have heqh : hi / 4096 % 16 * 4096 + hi / 256 % 16 * 256 + hi / 16 % 16 * 16
      + hi % 16 = hi := by omega
  have heql : lo / 4096 % 16 * 4096 + lo / 256 % 16 * 256 + lo / 16 % 16 * 16
      + lo % 16 = lo := by omega
  have hin1 : 55296 ≤ hi ∧ hi < 56320 := ⟨hhi1, hhi2⟩
  have hin2 : 56320 ≤ lo ∧ lo < 57344 := ⟨hlo1, hlo2⟩
  simp only [parseU, h1, h2, h3, h4]
  simp only [heqh]
  rw [if_pos hin1]
  simp only [parseULow, h5, h6, h7, h8]
  simp only [if_true, and_self, heql]
  rw [if_pos hin2]

set_option maxRecDepth 4000 in
/-- Decoding a surrogate-pair escape of a value above the basic
plane. -/
theorem parseEsc_u2 (v : Nat) (hv : 65536 ≤ v) (hv2 : v < 1114112)
    (tail : List Char) :
    parseEsc ('u'
      :: toHexDigit ((55296 + (v - 65536) / 1024) / 4096 % 16)
      :: toHexDigit ((55296 + (v - 65536) / 1024) / 256 % 16)
      :: toHexDigit ((55296 + (v - 65536) / 1024) / 16 % 16)
      :: toHexDigit ((55296 + (v - 65536) / 1024) % 16)
      :: '\\' :: 'u'
      :: toHexDigit ((56320 + (v - 65536) % 1024) / 4096 % 16)
      :: toHexDigit ((56320 + (v - 65536) % 1024) / 256 % 16)
      :: toHexDigit ((56320 + (v - 65536) % 1024) / 16 % 16)
      :: toHexDigit ((56320 + (v - 65536) % 1024) % 16)
      :: tail) = some (Char.ofNat v, tail) := by
  rw [parseEsc_U]
  rw [parseU_pair (55296 + (v - 65536) / 1024) (56320 + (v - 65536) % 1024)
    (by omega) (by omega) (by omega) (by omega) tail]
  have hval : 65536 + (55296 + (v - 65536) / 1024 - 55296) * 1024
      + (56320 + (v - 65536) % 1024 - 56320) = v := by omega
  rw [hval]

/-- A quote closes the string literal. -/
theorem parseJStringF_quote (fuel : Nat) (rest : List Char) :
    parseJStringF (fuel + 1) ('"' :: rest) = some ([], rest) := rfl

/-- A backslash defers to the escape decoder. -/
theorem parseJStringF_bs (fuel : Nat) (rest : List Char) :
    parseJStringF (fuel + 1) ('\\' :: rest) =
      match parseEsc rest with
      | none => none
      | some (ch, r) => (parseJStringF fuel r).map (fun p => (ch :: p.1, p.2)) := rfl

/-- Any other character is consumed as itself. -/
theorem parseJStringF_plain (fuel : Nat) (c : Char) (h1 : ¬c = '"')
    (h2 : ¬c = '\\') (rest : List Char) :
    parseJStringF (fuel + 1) (c :: rest) =
      (parseJStringF fuel rest).map (fun p => (c :: p.1, p.2)) := by
  simp only [parseJStringF, if_neg h1, if_neg h2]

/-- Stepping lemma for a two-character escape. -/
theorem esc_step (c x : Char) (cs rest : List Char) (f : Nat)
    (hesc : escapeChar c = ['\\', x])
    (hpe : parseEsc (x :: (escapeStr cs ++ '"' :: rest))
      = some (c, escapeStr cs ++ '"' :: rest))
    (hih : parseJStringF f (escapeStr cs ++ '"' :: rest) = some (cs, rest)) :
    parseJStringF (f + 1) (escapeStr (c :: cs) ++ '"' :: rest)
      = some (c :: cs, rest) := by
  have hsh : escapeStr (c :: cs) ++ '"' :: rest
      = '\\' :: x :: (escapeStr cs ++ '"' :: rest) := by
    simp [escapeStr, hesc]
  rw [hsh, parseJStringF_bs, hpe]
  simp [hih]

/-- Parsing inverts escaping: with enough fuel, the parser maps the
escaped form of `s` followed by a closing quote and `rest` back to
`s` and `rest`. -/
theorem parseJStringF_escape (s : List Char) : ∀ (rest : List Char) (fuel : Nat),
    (escapeStr s).length + 1 ≤ fuel →
    parseJStringF fuel (escapeStr s ++ '"' :: rest) = some (s, rest) := by
  induction s with
  | nil =>
      intro rest fuel hf
      cases fuel with
      | zero => exact absurd hf (by simp)
      | succ f => exact parseJStringF_quote f rest
  | cons c cs ih =>
      intro rest fuel hf
      cases fuel with
      | zero => exact absurd hf (by simp)
      | succ f =>
      by_cases h1 : c = '"'
      · subst h1
        have he : escapeChar '"' = ['\\', '"'] := rfl
        have hf2 : (escapeStr cs).length + 1 ≤ f := by
          simp only [escapeStr, List.length_append, he] at hf ⊢
          simp at hf
          omega
        exact esc_step _ _ cs rest f he rfl (ih rest f hf2)
      · by_cases h2 : c = '\\'
        · subst h2
          have he : escapeChar '\\' = ['\\', '\\'] := rfl
          have hf2 : (escapeStr cs).length + 1 ≤ f := by
            simp only [escapeStr, List.length_append, he] at hf
            simp at hf
            omega
          exact esc_step _ _ cs rest f he rfl (ih rest f hf2)
        · by_cases h3 : c = '\n'
          · subst h3
            have he : escapeChar '\n' = ['\\', 'n'] := rfl
            have hf2 : (escapeStr cs).length + 1 ≤ f := by
              simp only [escapeStr, List.length_append, he] at hf
              simp at hf
              omega
            exact esc_step _ _ cs rest f he rfl (ih rest f hf2)
          · by_cases h4 : c = '\r'
            · subst h4
              have he : escapeChar '\r' = ['\\', 'r'] := rfl
              have hf2 : (escapeStr cs).length + 1 ≤ f := by
                simp only [escapeStr, List.length_append, he] at hf
                simp at hf
                omega
              exact esc_step _ _ cs rest f he rfl (ih rest f hf2)
            · by_cases h5 : c = '\t'
              · subst h5
                have he : escapeChar '\t' = ['\\', 't'] := rfl
                have hf2 : (escapeStr cs).length + 1 ≤ f := by
                  simp only [escapeStr, List.length_append, he] at hf
                  simp at hf
                  omega
                exact esc_step _ _ cs rest f he rfl (ih rest f hf2)
              · by_cases h6 : c.toNat = 8
                · have hc : c = Char.ofNat 8 := by
                    rw [← h6, Char.ofNat_toNat]
                  have he : escapeChar c = ['\\', 'b'] := by
                    simp [escapeChar, h1, h2, h3, h4, h5, h6]
                  have hpe : parseEsc ('b' :: (escapeStr cs ++ '"' :: rest))
                      = some (c, escapeStr cs ++ '"' :: rest) := by
                    rw [hc]; rfl
                  have hf2 : (escapeStr cs).length + 1 ≤ f := by
                    simp only [escapeStr, List.length_append, he] at hf
                    simp at hf
                    omega
                  exact esc_step _ _ cs rest f he hpe (ih rest f hf2)
                · by_cases h7 : c.toNat = 12
                  · have hc : c = Char.ofNat 12 := by
                      rw [← h7, Char.ofNat_toNat]
                    have he : escapeChar c = ['\\', 'f'] := by
                      simp [escapeChar, h1, h2, h3, h4, h5, h6, h7]
                    have hpe : parseEsc ('f' :: (escapeStr cs ++ '"' :: rest))
                        = some (c, escapeStr cs ++ '"' :: rest) := by
                      rw [hc]; rfl
                    have hf2 : (escapeStr cs).length + 1 ≤ f := by
                      simp only [escapeStr, List.length_append, he] at hf
                      simp at hf
                      omega
                    exact esc_step _ _ cs rest f he hpe (ih rest f hf2)
                  · by_cases h8 : 32 ≤ c.toNat ∧ c.toNat ≤ 126
                    · have he : escapeChar c = [c] := by
                        simp [escapeChar, h1, h2, h3, h4, h5, h6, h7, h8]
                      have hf2 : (escapeStr cs).length + 1 ≤ f := by
                        simp only [escapeStr, List.length_append, he] at hf
                        simp at hf
                        omega
                      have hsh : escapeStr (c :: cs) ++ '"' :: rest
                          = c :: (escapeStr cs ++ '"' :: rest) := by
                        simp [escapeStr, he]
                      rw [hsh, parseJStringF_plain f c h1 h2, ih rest f hf2]
                      rfl
                    · by_cases h9 : c.toNat < 65536
                      · have hs : ¬(55296 ≤ c.toNat ∧ c.toNat < 57344) := by
                          rcases char_valid_range c with h | ⟨ha, hb⟩
                          · omega
                          · omega
                        have he : escapeChar c = uEscape c.toNat := by
                          simp [escapeChar, h1, h2, h3, h4, h5, h6, h7, h8, h9]
                        have hf2 : (escapeStr cs).length + 1 ≤ f := by
                          simp only [escapeStr, List.length_append, he, uEscape] at hf
                          simp at hf
                          omega
                        have hsh : escapeStr (c :: cs) ++ '"' :: rest
                            = '\\' :: ('u' :: toHexDigit (c.toNat / 4096 % 16)
                              :: toHexDigit (c.toNat / 256 % 16)
                              :: toHexDigit (c.toNat / 16 % 16)
                              :: toHexDigit (c.toNat % 16)
                              :: (escapeStr cs ++ '"' :: rest)) := by
                          simp [escapeStr, he, uEscape]
                        rw [hsh, parseJStringF_bs,
                          parseEsc_u c.toNat h9 hs (escapeStr cs ++ '"' :: rest),
                          Char.ofNat_toNat]
                        simp [ih rest f hf2]
                      · have hv : 65536 ≤ c.toNat := by omega
                        have hv2 : c.toNat < 1114112 := by
                          rcases char_valid_range c with h | ⟨ha, hb⟩
                          · omega
                          · omega
                        have he : escapeChar c
                            = uEscape (55296 + (c.toNat - 65536) / 1024)
                              ++ uEscape (56320 + (c.toNat - 65536) % 1024) := by
                          simp [escapeChar, h1, h2, h3, h4, h5, h6, h7, h8, h9]
                        have hf2 : (escapeStr cs).length + 1 ≤ f := by
                          simp only [escapeStr, List.length_append, he, uEscape] at hf
                          simp at hf
                          omega
                        have hsh : escapeStr (c :: cs) ++ '"' :: rest
                            = '\\' :: ('u'
                              :: toHexDigit ((55296 + (c.toNat - 65536) / 1024) / 4096 % 16)
                              :: toHexDigit ((55296 + (c.toNat - 65536) / 1024) / 256 % 16)
                              :: toHexDigit ((55296 + (c.toNat - 65536) / 1024) / 16 % 16)
                              :: toHexDigit ((55296 + (c.toNat - 65536) / 1024) % 16)
                              :: '\\' :: 'u'
                              :: toHexDigit ((56320 + (c.toNat - 65536) % 1024) / 4096 % 16)
                              :: toHexDigit ((56320 + (c.toNat - 65536) % 1024) / 256 % 16)
                              :: toHexDigit ((56320 + (c.toNat - 65536) % 1024) / 16 % 16)
                              :: toHexDigit ((56320 + (c.toNat - 65536) % 1024) % 16)
                              :: (escapeStr cs ++ '"' :: rest)) := by
                          simp [escapeStr, he, uEscape]
                        rw [hsh, parseJStringF_bs,
                          parseEsc_u2 c.toNat hv hv2 (escapeStr cs ++ '"' :: rest),
                          Char.ofNat_toNat]
                        simp [ih rest f hf2]

/-- Parsing inverts escaping, with the fuel the string parser actually
uses. -/
theorem parseJString_escape (s rest : List Char) :
    parseJString (escapeStr s ++ '"' :: rest) = some (s, rest) := by
  unfold parseJString
  apply parseJStringF_escape
  simp

/-- Whitespace is skipped. -/
theorem skipWs_cons_ws (c : Char) (h : isWsChar c = true) (l : List Char) :
    skipWs (c :: l) = skipWs l := by
  simp [skipWs, h]

/-- Skipping stops at a non-whitespace character. -/
theorem skipWs_cons_nws (c : Char) (h : isWsChar c = false) (l : List Char) :
    skipWs (c :: l) = c :: l := by
  simp [skipWs, h]

/-- The member parser ignores leading whitespace. -/
theorem parsePair_ws (c : Char) (h : isWsChar c = true) (l : List Char) :
    parsePair (c :: l) = parsePair l := by
  unfold parsePair
  rw [skipWs_cons_ws c h]

/-- The member parser inverts one dumped member line. -/
theorem parsePair_entry (k v : String) (tail : List Char) :
    parsePair (dumpsEntry k v ++ tail) = some ((k, v), tail) := by
  have hsh : dumpsEntry k v ++ tail
      = ' ' :: ' ' :: '"' :: (escapeStr k.data
          ++ '"' :: (':' :: ' ' :: '"' :: (escapeStr v.data ++ '"' :: tail))) := by
    simp [dumpsEntry, quoteJ]
  rw [hsh]
  unfold parsePair
  rw [skipWs_cons_ws _ (by decide), skipWs_cons_ws _ (by decide),
    skipWs_cons_nws _ (by decide)]
  simp only [if_pos rfl, parseJString_escape]
  rw [skipWs_cons_nws _ (by decide)]
  simp only [if_pos rfl]
  rw [skipWs_cons_ws _ (by decide), skipWs_cons_nws _ (by decide)]
  simp only [if_pos rfl, parseJString_escape]
  simp

/-- The member-list parser ignores leading whitespace. -/
theorem parseMembers_ws (fuel : Nat) (c : Char) (h : isWsChar c = true)
    (l : List Char) :
    parseMembers (fuel + 1) (c :: l) = parseMembers (fuel + 1) l := by
  simp only [parseMembers, parsePair_ws c h]

/-- Every member line is at least one character long. -/
theorem dumpsEntries_length (m : List (String × String)) :
    m.length ≤ (dumpsEntries m).length := by
  induction m with
  | nil => simp [dumpsEntries]
  | cons kv rest ih =>
      obtain ⟨k, v⟩ := kv
      cases rest with
      | nil => simp [dumpsEntries, dumpsEntry]
      | cons kv2 rest2 =>
          simp only [dumpsEntries, dumpsEntry, List.length_append, List.length_cons]
          simp only [List.length_cons] at ih
          omega

/-- The member-list parser inverts the dumped member lines followed by
the closing line break and bracket. -/
theorem parseMembers_dumps :
    ∀ (kvs : List (String × String)) (fuel : Nat), kvs ≠ [] →
      kvs.length ≤ fuel →
      parseMembers (fuel + 1) (dumpsEntries kvs ++ '\n' :: [rbrace])
        = some (kvs, []) := by
  intro kvs
  induction kvs with
  | nil => intro fuel h; exact absurd rfl h
  | cons kv rest ih =>
      obtain ⟨k, v⟩ := kv
      intro fuel hne hlen
      cases rest with
      | nil =>
          have hsh : dumpsEntries [(k, v)] ++ '\n' :: [rbrace]
              = dumpsEntry k v ++ ('\n' :: [rbrace]) := rfl
          rw [hsh]
          simp only [parseMembers, parsePair_entry]
          rw [skipWs_cons_ws _ (by decide), skipWs_cons_nws _ (by decide)]
          simp [(by decide : ¬(rbrace = ','))]
      | cons kv2 rest2 =>
          have hsh : dumpsEntries ((k, v) :: kv2 :: rest2) ++ '\n' :: [rbrace]
              = dumpsEntry k v
                ++ (',' :: '\n' :: (dumpsEntries (kv2 :: rest2) ++ '\n' :: [rbrace])) := by
            simp [dumpsEntries]
          cases fuel with
          | zero => simp at hlen
          | succ f =>
              rw [hsh]
              rw [parseMembers]
              simp only [parsePair_entry]
              rw [skipWs_cons_nws _ (by decide)]
              simp only [parseMembers_ws f '\n' (by decide),
                ih f (by simp) (by simpa using hlen)]
              simp

/-- Skipping whitespace over a dumped member line stops at its opening
quote. -/
theorem skipWs_entry (k v : String) (t : List Char) :
    skipWs (dumpsEntry k v ++ t)
      = '"' :: (escapeStr k.data
          ++ '"' :: (':' :: ' ' :: '"' :: (escapeStr v.data ++ '"' :: t))) := by
  have hsh : dumpsEntry k v ++ t
      = ' ' :: ' ' :: '"' :: (escapeStr k.data
          ++ '"' :: (':' :: ' ' :: '"' :: (escapeStr v.data ++ '"' :: t))) := by
    simp [dumpsEntry, quoteJ]
  rw [hsh, skipWs_cons_ws _ (by decide), skipWs_cons_ws _ (by decide),
    skipWs_cons_nws _ (by decide)]

/-- Existential form of `skipWs_entry`. -/
theorem skipWs_entry_ex (k v : String) (t : List Char) :
    ∃ Q, skipWs (dumpsEntry k v ++ t) = '"' :: Q :=
  ⟨_, skipWs_entry k v t⟩

/-- Round trip: parsing the dumped object recovers exactly the
mapping. -/
theorem json_roundtrip (m : List (String × String)) :
    json_loads (json_dumps m) = some m := by
  cases m with
  | nil => rfl
  | cons kv rest =>
      obtain ⟨k, v⟩ := kv
      have hd : json_dumps ((k, v) :: rest)
          = String.mk (lbrace :: '\n'
              :: (dumpsEntries ((k, v) :: rest) ++ ['\n', rbrace])) := rfl
      rw [hd]
      unfold json_loads
      rw [skipWs_cons_nws _ (by decide)]
      simp only [if_pos rfl]
      rw [skipWs_cons_ws _ (by decide)]
      obtain ⟨Q, hskip⟩ :
          ∃ Q, skipWs (dumpsEntries ((k, v) :: rest) ++ ['\n', rbrace])
            = '"' :: Q := by
        cases rest with
        | nil =>
            rw [show dumpsEntries [(k, v)] ++ ['\n', rbrace]
              = dumpsEntry k v ++ ('\n' :: [rbrace]) from rfl]
            exact skipWs_entry_ex k v _
        | cons kv2 rest2 =>
            rw [show dumpsEntries ((k, v) :: kv2 :: rest2) ++ ['\n', rbrace]
              = dumpsEntry k v ++ (',' :: '\n'
                :: (dumpsEntries (kv2 :: rest2) ++ '\n' :: [rbrace])) from by
                simp [dumpsEntries]]
            exact skipWs_entry_ex k v _
      rw [hskip]
      simp only [(by decide : ¬(('"' : Char) = rbrace)), if_false, ite_false]
      have hfuel : ((k, v) :: rest).length ≤ (dumpsEntries ((k, v) :: rest)).length :=
        dumpsEntries_length ((k, v) :: rest)
      rw [show ('\n' :: (dumpsEntries ((k, v) :: rest) ++ ['\n', rbrace])).length + 1
        = ((dumpsEntries ((k, v) :: rest)).length + 3) + 1 from by simp]
      rw [parseMembers_ws _ '\n' (by decide)]
      rw [parseMembers_dumps ((k, v) :: rest) _ (by simp)
        (by simp at hfuel ⊢; omega)]
      rfl

/-- Pulling a leading piece out of the join accumulator. -/
theorem intercalate_go_pull (s x : String) (l : List String) :
    ∀ y, String.intercalate.go (x ++ y) s l = x ++ String.intercalate.go y s l := by
  induction l with
  | nil => intro y; simp [String.intercalate.go]
  | cons c cs ih =>
      intro y
      simp only [String.intercalate.go]
      rw [String.append_assoc, String.append_assoc, ih, String.append_assoc]

/-- Join of at least two pieces: head, separator, join of the rest. -/
theorem intercalate_cons_cons (s a b : String) (l : List String) :
    String.intercalate s (a :: b :: l) = a ++ s ++ String.intercalate s (b :: l) := by
  simp only [String.intercalate, String.intercalate.go]
  have h : a ++ s ++ b = (a ++ s) ++ b := by rw [String.append_assoc]
  rw [h, intercalate_go_pull, String.append_assoc]

/-- Join of a single piece. -/
theorem intercalate_one (s a : String) : String.intercalate s [a] = a := by
  simp [String.intercalate, String.intercalate.go]

/-- Claim C8: the plain-text export renders each section as a heading
line `# ` + section name followed by its text, with a blank line
between consecutive sections; the JSON export serializes the mapping as
the Python json module does; both are functions of the mapping alone,
and parsing the JSON export reconstructs exactly the mapping that was
serialized. -/
theorem claim_C8 :
    (∀ s c, textExport [(s, c)] = "# " ++ s ++ "\n\n" ++ c) ∧
    (∀ s c x l, textExport ((s, c) :: x :: l)
      = "# " ++ s ++ "\n\n" ++ c ++ "\n\n" ++ textExport (x :: l)) ∧
    (∀ m, json_loads (json_dumps m) = some m) := by
  refine ⟨?_, ?_, json_roundtrip⟩
  · intro s c
    simp only [textExport, List.map_cons, List.map_nil]
    rw [intercalate_one]
  · intro s c x l
    simp only [textExport, List.map_cons]
    rw [intercalate_cons_cons]

end TenderBot
